import Mathlib

/-!
Verification of the wp2tt style-resolution and tagged-output core.

This file is a shallow embedding, in Lean 4, of the parts of the wp2tt
repository that the specification talks about:

* `wp2tt/format.py` (the `ManualFormat` bit flags),
* `wp2tt/styles.py` (the `Style` and `Rule` dataclasses),
* `wp2tt/ini.py` (the `SettingsFile` persistent store),
* `wp2tt/__init__.py` (style registry, rule engine, manual-format
  synthesizer, activation),
* `wp2tt/tagged_text.py` (the `InDesignTaggedTextOutput` writer).

Conventions of the embedding:

* Python objects that are mutated through shared references (`Style`
  instances) are stored in an arena (`List Style`); a reference is an
  index (`Nat`) into the arena.  Mutation is an arena update.
* Python `dict`s are association lists (`alookup` / `aset`): assigning
  an existing key keeps its position, a new key is appended, matching
  CPython insertion-order semantics.
* Fallible operations (dict subscript raising `KeyError`, attribute
  access raising `AttributeError`) return `Except RunErr`.
* Unbounded recursion (`define_style`, `activate_style`) takes explicit
  fuel and returns `Option` / `Except`; running out of fuel is `none` /
  `.error .outOfFuel`, never silent truncation.
-/

namespace Wp2tt

/-! ## Association-list dictionaries (CPython `dict` semantics) -/

/-- Lookup in an insertion-ordered dictionary. -/
def alookup {α β : Type} [DecidableEq α] : List (α × β) → α → Option β
  | [], _ => none
  | (k, v) :: rest, key => if k = key then some v else alookup rest key

/-- Assignment in an insertion-ordered dictionary: an existing key keeps
its position, a new key is appended at the end (CPython semantics). -/
def aset {α β : Type} [DecidableEq α] : List (α × β) → α → β → List (α × β)
  | [], k, v => [(k, v)]
  | (k0, v0) :: rest, k, v =>
    if k0 = k then (k0, v) :: rest else (k0, v0) :: aset rest k v

/-- Deletion (`dict.pop(key, None)`). -/
def apop {α β : Type} [DecidableEq α] : List (α × β) → α → List (α × β)
  | [], _ => []
  | (k0, v0) :: rest, k =>
    if k0 = k then rest else (k0, v0) :: apop rest k

/-! ## `wp2tt/format.py`: `ManualFormat`

`ManualFormat` is an `enum.Flag`; we embed it as a `Nat` bitmask with
one named constant per member, in declaration order. -/

def NORMAL : Nat := 0
def CENTERED : Nat := 1
def JUSTIFIED : Nat := 2
def NEW_PAGE : Nat := 4
def SPACED : Nat := 8
def RTL : Nat := 16
def LTR : Nat := 32
def INDENTED : Nat := 64
def BOLD : Nat := 128
def ITALIC : Nat := 256
def SUBSCRIPT : Nat := 512
def SUPERSCRIPT : Nat := 1024
def RAISED : Nat := 2048
def LOWERED : Nat := 4096
def HIGHLIGHT : Nat := 8192

/-- The union of all declared flag bits: `enum.Flag` complement (`~`) is
taken within this universe. -/
def fmt_mask : Nat := 16383

/-- `a & ~b` on `ManualFormat` values (complement confined to declared bits). -/
def fmt_and_not (a b : Nat) : Nat := a &&& (fmt_mask ^^^ b)

/-- The named members with their bits, in declaration order.  `NORMAL`
has value 0, so `fmt & NORMAL` is always falsy and it can never
contribute to a joined name; it is therefore omitted from this list. -/
def fmt_flags : List (Nat × String) :=
  [(CENTERED, "CENTERED"), (JUSTIFIED, "JUSTIFIED"), (NEW_PAGE, "NEW_PAGE"),
   (SPACED, "SPACED"), (RTL, "RTL"), (LTR, "LTR"), (INDENTED, "INDENTED"),
   (BOLD, "BOLD"), (ITALIC, "ITALIC"), (SUBSCRIPT, "SUBSCRIPT"),
   (SUPERSCRIPT, "SUPERSCRIPT"), (RAISED, "RAISED"), (LOWERED, "LOWERED"),
   (HIGHLIGHT, "HIGHLIGHT")]

/-- `"_".join(f.name for f in ManualFormat if fmt & f and f.name)`
(from `get_manual_style`, `wp2tt/__init__.py`). -/
def fmt_join (fmt : Nat) : String :=
  "_".intercalate ((fmt_flags.filter fun p => fmt &&& p.1 ≠ 0).map Prod.snd)

/-! ## `wp2tt/styles.py`: `Style` and `Rule`

`Style.parent_style` / `next_style` are Python object references; here
they are arena indices (`Option Nat`).  The field called `variable` in
the source is named `variable_` because `variable` is a Lean keyword. -/

structure Style where
  realm : String
  wpid : String
  internal_name : String
  name : String
  parent_wpid : Option String := none
  next_wpid : Option String := none
  automatic : Bool := false
  custom : Bool := false
  fmt : Nat := NORMAL
  idtt : String := ""
  variable_ : Option String := none
  used : Bool := false
  count : Nat := 0
  parent_style : Option Nat := none
  next_style : Option Nat := none
deriving DecidableEq

instance : Inhabited Style :=
  ⟨{ realm := "", wpid := "", internal_name := "", name := "" }⟩

/-- The `Rule` dataclass, exactly as declared in `wp2tt/styles.py`
(fields `mnemonic` through `applied`).  Note that it declares *no*
`unless_empty` field. -/
structure Rule where
  mnemonic : String
  description : String
  turn_this : Option String := none
  into_this : Option String := none
  when_following : Option String := none
  when_first_in_doc : Option String := none
  turn_this_style : Option Nat := none
  into_this_style : Option Nat := none
  when_following_styles : Option (List Nat) := none
  valid : Bool := true
  applied : Nat := 0
deriving DecidableEq

/-! ## Error values

`notAnAttrsClass` stands for `attr.exceptions.NotAnAttrsClassError`:
`SettingsFile.fields` (`wp2tt/ini.py:63`) iterates `attr.fields(klass)`
over classes (`Style`, `Rule`) that are declared with
`dataclasses.dataclass` (`wp2tt/styles.py`), not with `attr.s`, and
`attr.fields` raises for any class without `__attrs_attrs__`. -/

inductive RunErr
  | keyError (key : String)
  | attributeError (attr : String)
  | notAnAttrsClass (cls : String)
  | outOfFuel
deriving DecidableEq

/-! ## `wp2tt/ini.py`: `SettingsFile`

The store is a list of sections, each an insertion-ordered list of
(key, value) string pairs, plus the `touched` flag. -/

structure SettingsFile where
  sections : List (String × List (String × String)) := []
  touched : Bool := false
deriving DecidableEq

/-- `SettingsFile.fields(klass, ...)` (`wp2tt/ini.py:61-72`): a
generator over `attr.fields(klass)` yielding `(name, ini_name)` pairs.
The program only ever passes `Style` and `Rule`, which are stdlib
dataclasses, so `attr.fields` raises `NotAnAttrsClassError` on the
generator's first iteration, before a single field is yielded — every
iteration of `fields(...)` in the program raises. -/
def settings_fields (klass : String) : Except RunErr (List (String × String)) :=
  .error (.notAnAttrsClass klass)

/-- `SettingsFile.ensure_section`. -/
def ensure_section (ini : SettingsFile) (name : String) : SettingsFile :=
  match alookup ini.sections name with
  | some _ => ini
  | none => { ini with sections := aset ini.sections name [] }

/-- `SettingsFile.get_section` (read-only: a missing section reads as an
empty dict and is not added). -/
def get_section (ini : SettingsFile) (name : String) : List (String × String) :=
  (alookup ini.sections name).getD []

/-- `SettingsFile.update_section(section_name, style)`
(`wp2tt/ini.py:125-137`).  `ensure_section` first adds the section when
it is missing; the loop `for name, ini_name in self.fields(Style)` then
raises `NotAnAttrsClassError` on its first iteration (see
`settings_fields`), before any `section.get(ini_name) != value`
comparison or store runs — in particular `touched` is never modified
here.  The result pairs the store as mutated so far (the ensured
section) with the outcome of the loop, which is always the raise. -/
def update_section (ini : SettingsFile) (section_name : String) (_s : Style) :
    SettingsFile × Except RunErr Unit :=
  (ensure_section ini section_name,
   (settings_fields "Style").map fun _ => ())

/-- `SettingsFile.backup_and_write`, reduced to its observable effect on
the `.bak` sibling: the backup is copied exactly when the store is
touched and the file already exists. -/
def backup_and_write (ini : SettingsFile) (file_exists : Bool) : Bool :=
  ini.touched && file_exists

/-- `SettingsFile.fix_section_name(realm, internal_name)`. -/
def fix_section_name (realm internal_name : String) : String :=
  realm.capitalize ++ ":" ++ internal_name

/-! ## Rule engine (`wp2tt/__init__.py`)

`rule_applies_to` reads `rule.unless_empty`.  The `Rule` dataclass in
`wp2tt/styles.py` declares no such field, so on any valid rule the read
raises `AttributeError`. -/

/-- The attribute read `rule.unless_empty`: `Rule` has no `unless_empty`
field (see `wp2tt/styles.py`), so there is no value to return. -/
def rule_unless_empty (_ : Rule) : Option String := none

/-- `WordProcessorToInDesignTaggedText.rule_applies_to(rule, style, is_empty)`.
`style` is an arena index; the identity test `rule.turn_this_style is
not style` is index equality; `style.count` is read from the arena;
`prev_para_style` is `self.state.prev_para_style`. -/
def rule_applies_to (reg : List Style) (prev_para_style : Option Nat)
    (rule : Rule) (style : Nat) (is_empty : Bool) : Except RunErr Bool :=
  if rule.valid = false then .ok false
  else
    match rule_unless_empty rule with
    | none => .error (.attributeError "unless_empty")
    | some unless_empty =>
      if unless_empty ≠ "" && is_empty then .ok false
      else if !(rule.turn_this_style = some style) then .ok false
      else if (match rule.when_first_in_doc with
               | some s => s ≠ ""
               | none => false)
              && decide ((reg.getD style default).count > 1) then .ok false
      else if (match rule.when_following_styles with
               | some l => !l.isEmpty
               | none => false)
              && !(match rule.when_following_styles with
                   | some l => match prev_para_style with
                               | some p => l.contains p
                               | none => false
                   | none => false) then .ok false
      else .ok true

/-- The rule loop of `apply_rules_to`: iterate in declaration order;
the first rule for which `rule_applies_to` holds gets its `applied`
counter incremented and its `into_this_style` returned. -/
def apply_rules_go (reg : List Style) (prev : Option Nat) (sid : Nat)
    (is_empty : Bool) : List Rule → Except RunErr (Option (Option Nat × List Rule))
  | [] => .ok none
  | r :: rest =>
    match rule_applies_to reg prev r sid is_empty with
    | .error e => .error e
    | .ok true =>
      .ok (some (r.into_this_style, { r with applied := r.applied + 1 } :: rest))
    | .ok false =>
      match apply_rules_go reg prev sid is_empty rest with
      | .error e => .error e
      | .ok none => .ok none
      | .ok (some (res, rest')) => .ok (some (res, r :: rest'))

/-- `WordProcessorToInDesignTaggedText.apply_rules_to`, given the
already-resolved paragraph style (the result of `get_paragraph_style`).
Returns the style to use and the (possibly counter-incremented) rules. -/
def apply_rules_to (reg : List Style) (prev : Option Nat) (rules : List Rule)
    (style : Option Nat) (is_empty : Bool) :
    Except RunErr (Option Nat × List Rule) :=
  match style with
  | none => .ok (none, rules)
  | some sid =>
    match apply_rules_go reg prev sid is_empty rules with
    | .error e => .error e
    | .ok none => .ok (some sid, rules)
    | .ok (some (res, rules')) => .ok (res, rules')

/-! ## Style registry state (`WordProcessorToInDesignTaggedText`)

The per-run mutable state: the style arena plus the `self.styles` dict
(`index`, keyed by `style_key`), `self.manual_styles`, `self.base_names`
and `self.base_styles`, `self.style_sections_used`, and the settings
store.  `args_base_character_style` is the command-line
`--base-character-style` value used by the unknown-realm fallback. -/

/-- `ManualFormatCustomStyle` (`wp2tt/__init__.py`): the frozen cache
key for manual-format synthesis. -/
structure ManualFormatCustomStyle where
  fmt : Nat
  unadorned : Option String
deriving DecidableEq

/-- `Wp2ttParser.SPECIAL_GROUP`.  `wp2tt/usage.py` is not part of the
sources; modelled from the spec as an opaque style-group marker whose
exact text is immaterial to every claim. -/
def SPECIAL_GROUP : String := "(wp2tt)"

def COMMENT_REF_STYLE : String := SPECIAL_GROUP ++ "/(Comment Reference)"

structure RunSt where
  arena : List Style := []
  index : List (String × Nat) := []
  manual : List (ManualFormatCustomStyle × Nat) := []
  baseNames : List (String × String) := []
  baseStyles : List (String × Nat) := []
  sectionsUsed : List String := []
  ini : SettingsFile := {}
  styleToVariable : List (String × String) := []
  args_base_character_style : String := "Basic Paragraph"
deriving DecidableEq

/-- `WordProcessorToInDesignTaggedText.style_key(realm, wpid)`. -/
def style_key (realm wpid : String) : String := realm ++ ":" ++ wpid

/-- The keyword arguments a style declaration may carry (beyond the
positional `realm`, `internal_name`, `wpid`).  `none` on an optional
field models the key being absent from the kwargs dict. -/
structure DeclKwargs where
  name : Option String := none
  parent_wpid : Option String := none
  next_wpid : Option String := none
  parent_style : Option Nat := none
  next_style : Option Nat := none
  automatic : Bool := false
  custom : Bool := false
  fmt : Nat := NORMAL
  idtt : Option String := none
  used : Bool := false
  variable_ : Option String := none
deriving DecidableEq

/-- `WordProcessorToInDesignTaggedText.add_style`: unconditionally
constructs a fresh `Style` from the kwargs and assigns it into
`self.styles` under its key (replacing any existing binding). -/
def add_style (st : RunSt) (realm wpid internal_name : String) (kw : DeclKwargs) :
    RunSt :=
  let kw :=
    if st.styleToVariable ≠ [] ∧ realm = "paragraph" ∧ kw.variable_ = none then
      { kw with variable_ := alookup st.styleToVariable internal_name }
    else kw
  let kw := if kw.name.isSome then kw else { kw with name := some internal_name }
  let s : Style :=
    { realm := realm, wpid := wpid, internal_name := internal_name,
      name := kw.name.getD internal_name,
      parent_wpid := kw.parent_wpid, next_wpid := kw.next_wpid,
      automatic := kw.automatic, custom := kw.custom, fmt := kw.fmt,
      idtt := kw.idtt.getD "", variable_ := kw.variable_,
      used := kw.used, count := 0,
      parent_style := kw.parent_style, next_style := kw.next_style }
  { st with
    arena := st.arena ++ [s],
    index := aset st.index (style_key realm wpid) st.arena.length }

/-- The `STYLE_OVERRIDE` table: optional (name, idtt) overrides for a
given (realm, internal_name). -/
def style_override_for (realm internal_name : String) :
    Option (Option String × Option String) :=
  if realm = "character" ∧ internal_name = COMMENT_REF_STYLE then
    some (none, some "<pShadingColor:Cyan><pShadingOn:1><pShadingTint:100>")
  else if realm = "paragraph" ∧ internal_name = "annotation text" then
    some (some (SPECIAL_GROUP ++ "/(Comment Text)"),
          some "<cSize:6><cColor:Cyan><cColorTint:100>")
  else none

/-- `WordProcessorToInDesignTaggedText.found_style_definition`
(`wp2tt/__init__.py:445-478`): unknown-realm fallback, parent-wpid
defaulting, hard-coded overrides, name defaulting; then the
persisted-settings merge iterates `self.settings.fields(Style,
writeable=True)`, which raises `NotAnAttrsClassError` (see
`settings_fields`) on every call — `add_style` is never reached and no
`Style` is ever created or installed.  The `.ok` arm below is the
source's continuation (the persisted overrides for the writeable
fields `name`, `idtt`, `variable`, then `add_style`); it is
unreachable. -/
def found_style_definition (st : RunSt) (realm internal_name wpid : String)
    (kw : DeclKwargs) : Except RunErr RunSt :=
  let st :=
    if (alookup st.baseNames realm).isSome then st
    else { st with baseNames := aset st.baseNames realm st.args_base_character_style }
  let kw :=
    match kw.parent_style with
    | some p =>
      if kw.parent_wpid.isSome then kw
      else { kw with parent_wpid := some ((st.arena.getD p default).wpid) }
    | none =>
      if some wpid ≠ alookup st.baseNames realm then
        if kw.parent_wpid.isSome then kw
        else { kw with parent_wpid := alookup st.baseNames realm }
      else kw
  let kw :=
    match style_override_for realm internal_name with
    | some (n, i) =>
      let kw := match n with | some v => { kw with name := some v } | none => kw
      match i with | some v => { kw with idtt := some v } | none => kw
    | none => kw
  let kw :=
    if kw.name.getD "" ≠ "" then kw
    else { kw with name := some internal_name }
  let sec := get_section st.ini (fix_section_name realm internal_name)
  match settings_fields "Style" with
  | .error e => .error e
  | .ok _flds =>
    let kw := match alookup sec "name" with
              | some v => { kw with name := some v } | none => kw
    let kw := match alookup sec "idtt" with
              | some v => { kw with idtt := some v } | none => kw
    let kw := match alookup sec "variable" with
              | some v => { kw with variable_ := some v } | none => kw
    .ok (add_style st realm wpid internal_name kw)

/-- One usage mention from `scan_style_mentions`: set `used = True` when
the style exists, otherwise log and do nothing. -/
def mark_used (st : RunSt) (realm wpid : String) : RunSt :=
  match alookup st.index (style_key realm wpid) with
  | none => st
  | some i =>
    let s := st.arena.getD i default
    if s.used then st
    else { st with arena := st.arena.set i { s with used := true } }

/-- `WordProcessorToInDesignTaggedText.style_or_none`: a falsy wpid is
`None`; otherwise `self.styles[key]` — a plain dict subscript that
raises `KeyError` when the key was never declared. -/
def style_or_none (st : RunSt) (realm : String) (wpid : Option String) :
    Except RunErr (Option Nat) :=
  match wpid with
  | none => .ok none
  | some w =>
    if w = "" then .ok none
    else
      match alookup st.index (style_key realm w) with
      | some i => .ok (some i)
      | none => .error (.keyError (style_key realm w))

/-- The loop body of `link_styles`, iterating over the registry dict
bindings. -/
def link_styles_go (st : RunSt) : List (String × Nat) → Except RunErr RunSt
  | [] => .ok st
  | (_, i) :: rest =>
    let s := st.arena.getD i default
    match style_or_none st s.realm s.parent_wpid with
    | .error e => .error e
    | .ok p =>
      match style_or_none st s.realm s.next_wpid with
      | .error e => .error e
      | .ok nx =>
        link_styles_go
          { st with arena := st.arena.set i { s with parent_style := p, next_style := nx } }
          rest

/-- `WordProcessorToInDesignTaggedText.link_styles`: resolve every
declared style's `parent_wpid` / `next_wpid` into object references. -/
def link_styles (st : RunSt) : Except RunErr RunSt :=
  link_styles_go st st.index

/-- `WordProcessorToInDesignTaggedText.activate_style` (fuel-bounded).
Skips styles whose settings section was already visited; rewrites a
parent link whose target is unused to the realm's base style and
recurses into the (possibly rewritten) parent; then calls
`self.settings.update_section`, which raises `NotAnAttrsClassError`
(see `update_section`), so for a not-yet-visited style activation never
returns normally: the section is never recorded in
`style_sections_used` and the next-style step is never reached (the
`.ok` arm keeping the source's continuation is unreachable). -/
def activate_style : Nat → Nat → RunSt → Except RunErr RunSt
  | 0, _, _ => .error .outOfFuel
  | fuel + 1, i, st =>
    let s := st.arena.getD i default
    let section_name := fix_section_name s.realm s.internal_name
    if section_name ∈ st.sectionsUsed then .ok st
    else
      let step1 : Except RunErr RunSt :=
        match s.parent_style with
        | none => .ok st
        | some p =>
          if (st.arena.getD p default).used then activate_style fuel p st
          else
            match alookup st.baseStyles s.realm with
            | none => .error (.keyError s.realm)
            | some b =>
              let s1 := { s with
                parent_style := some b,
                parent_wpid := some ((st.arena.getD b default).wpid) }
              activate_style fuel b { st with arena := st.arena.set i s1 }
      match step1 with
      | .error e => .error e
      | .ok st1 =>
        let s2 := st1.arena.getD i default
        let upd := update_section st1.ini section_name s2
        match upd.2 with
        | .error e => .error e
        | .ok _ =>
          let st2 := { st1 with
            ini := upd.1,
            sectionsUsed := section_name :: st1.sectionsUsed }
          match s2.next_style with
          | some nx =>
            if (st2.arena.getD nx default).used then activate_style fuel nx st2
            else .ok st2
          | none => .ok st2

/-- The `IGNORED_STYLES` table. -/
def IGNORED_STYLES : List (String × String) := [("character", "annotation reference")]

/-- `WordProcessorToInDesignTaggedText.style(realm, wpid)`: traversal
lookup; a falsy wpid is `None`; an ignored style returns `None` before
activation; otherwise activate, bump the usage counter, return. -/
def style_fn (fuel : Nat) (st : RunSt) (realm : String) (wpid : Option String) :
    Except RunErr (Option Nat × RunSt) :=
  match wpid with
  | none => .ok (none, st)
  | some w =>
    if w = "" then .ok (none, st)
    else
      match alookup st.index (style_key realm w) with
      | none => .error (.keyError (style_key realm w))
      | some i =>
        if IGNORED_STYLES.contains (realm, (st.arena.getD i default).internal_name) then
          .ok (none, st)
        else
          match activate_style fuel i st with
          | .error e => .error e
          | .ok st1 =>
            let s := st1.arena.getD i default
            .ok (some i, { st1 with arena := st1.arena.set i { s with count := s.count + 1 } })

/-! ## Manual-format synthesizer (`get_manual_style`) -/

/-- The cache key `get_manual_style` would build for a request, or
`none` when the request returns early without consulting the cache.
Mirrors the prefix of `get_manual_style` below. -/
def manual_key (st : RunSt) (realm : String) (unadorned : Option Nat) (fmt0 : Nat) :
    Option ManualFormatCustomStyle :=
  let fmt := match unadorned with
    | some u => if fmt0 ≠ 0 then fmt_and_not fmt0 (st.arena.getD u default).fmt else fmt0
    | none => fmt0
  if fmt = 0 ∧ (unadorned.isSome ∨ realm ≠ "paragraph") then none
  else some ⟨fmt, unadorned.map fun u => (st.arena.getD u default).wpid⟩

/-- `WordProcessorToInDesignTaggedText.get_manual_style`.  The source's
base-style filtering (`if not unadorned.custom: unadorned = None`) is
commented out, so the supplied base style is used regardless of its
`custom` flag.  On a cache miss the synthesis calls
`found_style_definition`, which raises `NotAnAttrsClassError`, so the
memoization in the final `.ok` arm is never reached and the cache never
gains an entry. -/
def get_manual_style (fuel : Nat) (st : RunSt) (realm : String)
    (unadorned : Option Nat) (fmt0 : Nat) : Except RunErr (Option Nat × RunSt) :=
  let fmt := match unadorned with
    | some u => if fmt0 ≠ 0 then fmt_and_not fmt0 (st.arena.getD u default).fmt else fmt0
    | none => fmt0
  if fmt = 0 ∧ (unadorned.isSome ∨ realm ≠ "paragraph") then .ok (unadorned, st)
  else
    let uaid := unadorned.map fun u => (st.arena.getD u default).wpid
    let mfcs : ManualFormatCustomStyle := ⟨fmt, uaid⟩
    match alookup st.manual mfcs with
    | some sid => .ok (some sid, st)
    | none =>
      let fmtname := if fmt ≠ 0 then fmt_join fmt else "NORMAL"
      let parentE : Except RunErr (Option Nat × RunSt) :=
        match unadorned with
        | some u => .ok (some u, st)
        | none =>
          match alookup st.baseNames realm with
          | none => .error (.keyError realm)
          | some bn => style_fn fuel st realm (some bn)
      match parentE with
      | .error e => .error e
      | .ok (parent, st1) =>
        let name := match unadorned with
          | some u =>
            SPECIAL_GROUP ++ "/" ++ (st.arena.getD u default).name ++ " (" ++ fmtname ++ ")"
          | none => SPECIAL_GROUP ++ "/(" ++ fmtname ++ ")"
        let newId := st1.arena.length
        match found_style_definition st1 realm name name
            { parent_style := parent, automatic := true } with
        | .error e => .error e
        | .ok st2 =>
          .ok (some newId, { st2 with manual := aset st2.manual mfcs newId })

/-- One synthesis request. -/
structure MCall where
  realm : String
  unadorned : Option Nat
  fmt : Nat
deriving DecidableEq

/-- A sequence of `get_manual_style` requests, instrumented with a trace:
each entry records, for requests that consult the cache, the computed
key, whether a new style was created (cache miss), and the returned
style id. -/
def run_manual_calls (fuel : Nat) :
    List MCall → RunSt →
    Except RunErr (List (Option (ManualFormatCustomStyle × Bool × Nat)) × RunSt)
  | [], st => .ok ([], st)
  | c :: cs, st =>
    match get_manual_style fuel st c.realm c.unadorned c.fmt with
    | .error e => .error e
    | .ok (r, st1) =>
      let entry := match manual_key st c.realm c.unadorned c.fmt, r with
        | some k, some rid => some (k, (alookup st.manual k).isNone, rid)
        | _, _ => none
      match run_manual_calls fuel cs st1 with
      | .error e => .error e
      | .ok (tr, st2) => .ok (entry :: tr, st2)

/-! ## `wp2tt/tagged_text.py`: `InDesignTaggedTextOutput`

The writer's output buffer is modelled as a list of abstract items: the
header banner (format line and color table), a style-definition block
(carrying the `BasedOn` / `Nextstyle` references it emits), a
`ParaStyle` / `CharStyle` / `TableStyle` tag, a newline, and plain
text.  The writer reads the (post-activation) style arena `reg`, which
is fixed while it runs. -/

/-- `StyleState` (`wp2tt/tagged_text.py`): SEEN = 0, DEFINED = 1,
WRITTEN = 2. -/
inductive StyleState
  | seen
  | defined
  | written
deriving DecidableEq

inductive OutItem
  | headerBanner
  | defBlock (s : Nat) (refs : List Nat)
  | styleTag (mnem : String) (s : Option Nat)
  | newline
  | text (t : String)
deriving DecidableEq

structure Writer where
  styles : List (Nat × StyleState) := []
  headers_written : Bool := false
  buffer : List OutItem := []
  curr_char_style : Option Nat := none
deriving DecidableEq

/-- The `BasedOn` / `Nextstyle` references a style's define block emits:
the parent and next style, each only when present and marked used
(`_write_style_definition`, lines 124–131). -/
def style_refs (reg : List Style) (s : Nat) : List Nat :=
  let st := reg.getD s default
  (match st.parent_style with
   | some p => if (reg.getD p default).used then [p] else []
   | none => []) ++
  (match st.next_style with
   | some nx => if (reg.getD nx default).used then [nx] else []
   | none => [])

/-- `InDesignTaggedTextOutput._write_style_definition`: skip when the
progress marker is already `WRITTEN` (the maximum, so `>= WRITTEN` is
equality); otherwise emit the define block and mark `WRITTEN`. -/
def _write_style_definition (reg : List Style) (w : Writer) (s : Nat) : Writer :=
  if (alookup w.styles s).getD .seen = StyleState.written then w
  else
    { w with
      styles := aset w.styles s .written,
      buffer := w.buffer ++ [.defBlock s (style_refs reg s)] }

/-- The tail of `define_style`: flip the marker to `DEFINED` and, when
the headers have already been written, write the definition inline. -/
def define_style_finish (reg : List Style) (s : Nat) (w3 : Writer) : Writer :=
  let w4 := { w3 with styles := aset w3.styles s StyleState.defined }
  if w4.headers_written then _write_style_definition reg w4 s else w4

/-- `InDesignTaggedTextOutput.define_style` on an optional style
reference (the `if style.parent_style is not None: self.define_style(...)`
steps): a `none` reference is no call at all.  On a present style:
return if already tracked; insert with marker `SEEN`; recursively define
the parent, then the next style; flip to `DEFINED`; when the headers
have already been written, write the definition inline.  Structurally
recursive on the fuel. -/
def define_opt (reg : List Style) : Nat → Option Nat → Writer → Option Writer
  | _, none, w => some w
  | 0, some _, _ => none
  | fuel + 1, some s, w =>
    if (alookup w.styles s).isSome then some w
    else
      (define_opt reg fuel (reg.getD s default).parent_style
        { w with styles := aset w.styles s StyleState.seen }).bind fun w2 =>
      (define_opt reg fuel (reg.getD s default).next_style w2).bind fun w3 =>
      some (define_style_finish reg s w3)

/-- `InDesignTaggedTextOutput.define_style(style)` proper. -/
def define_style (reg : List Style) (fuel s : Nat) (w : Writer) : Option Writer :=
  define_opt reg fuel (some s) w

/-- `InDesignTaggedTextOutput._write_headers`: emit the banner, then
every currently tracked style's definition in dict insertion order (one
newline after each), then flip `_headers_written`. -/
def _write_headers (reg : List Style) (w : Writer) : Writer :=
  if w.headers_written then w
  else
    let w1 := { w with buffer := w.buffer ++ [OutItem.headerBanner] }
    let ks := w1.styles.map Prod.fst
    let w2 := ks.foldl
      (fun acc s =>
        let a := _write_style_definition reg acc s
        { a with buffer := a.buffer ++ [OutItem.newline] })
      w1
    { w2 with headers_written := true }

/-- `InDesignTaggedTextOutput._set_style(id_real, style)`: define the
style when one is given, then emit the tag. -/
def _set_style (reg : List Style) (fuel : Nat) (mnem : String)
    (style : Option Nat) (w : Writer) : Option Writer :=
  Option.map
    (fun w1 => { w1 with buffer := w1.buffer ++ [OutItem.styleTag mnem style] })
    (define_opt reg fuel style w)

/-- `InDesignTaggedTextOutput.set_character_style(style)`: emit the tag
(unconditionally) and remember the style.  The Python method returns
`None`. -/
def set_character_style (reg : List Style) (fuel : Nat) (style : Option Nat)
    (w : Writer) : Option Writer :=
  (_set_style reg fuel "Char" style w).map fun w1 =>
    { w1 with curr_char_style := style }

/-- `InDesignTaggedTextOutput.enter_paragraph(style)`: lazily write the
headers, emit the paragraph tag, and re-assert an active character
style. -/
def enter_paragraph (reg : List Style) (fuel : Nat) (style : Option Nat)
    (w : Writer) : Option Writer :=
  let w1 := _write_headers reg w
  (_set_style reg fuel "Para" style w1).bind fun w2 =>
    match w2.curr_char_style with
    | some cs => _set_style reg fuel "Char" (some cs) w2
    | none => some w2

/-! ## Traversal state and the driver's character-style switching -/

/-- The `State` dataclass of `wp2tt/__init__.py`. -/
structure State where
  curr_char_style : Option Nat := none
  active_char_style : Option Nat := none
  prev_para_style : Option Nat := none
  is_empty : Bool := true
  is_post_empty : Bool := false
  is_post_break : Bool := false
  para_char_fmt : Nat := NORMAL
deriving DecidableEq

/-- `WordProcessorToInDesignTaggedText.switch_character_style(style)`:
remember the previous style; only when the requested style `is not` the
previous one, call the writer and update the state; always return the
previous style. -/
def switch_character_style (reg : List Style) (fuel : Nat) (style : Option Nat)
    (ds : State) (w : Writer) : Option (Option Nat × State × Writer) :=
  let prev := ds.curr_char_style
  if style ≠ prev then
    (set_character_style reg fuel style w).map fun w1 =>
      (prev, { ds with curr_char_style := style }, w1)
  else some (prev, ds, w)

/-! ## Decidable output-ordering predicates -/

/-- The references carried by a buffer item (nonempty only for define
blocks). -/
def block_refs : OutItem → List Nat
  | .defBlock _ refs => refs
  | _ => []

/-- Is this item the define block of style `s`? -/
def is_def_of (s : Nat) : OutItem → Bool
  | .defBlock t _ => t = s
  | _ => false

/-- Does the buffer contain a define block for `s`? -/
def has_block (buf : List OutItem) (s : Nat) : Bool :=
  buf.any (is_def_of s)

/-- Definition-before-use from position `n` on: every define block at
position `≥ n` has, for each style it references, a define block at an
earlier position. -/
def ordered_from (buf : List OutItem) (n : Nat) : Prop :=
  ∀ i, i < buf.length → n ≤ i →
    ∀ r ∈ block_refs (buf.getD i .newline),
      ∃ j, j < i ∧ is_def_of r (buf.getD j .newline) = true

/-- Boolean checker for `ordered_from`. -/
def ordered_fromB (buf : List OutItem) (n : Nat) : Bool :=
  (List.range buf.length).all fun i =>
    !(decide (n ≤ i)) ||
      (block_refs (buf.getD i .newline)).all fun r =>
        (List.range i).any fun j => is_def_of r (buf.getD j .newline)

instance (buf : List OutItem) (n : Nat) : Decidable (ordered_from buf n) :=
  decidable_of_iff (ordered_fromB buf n = true) (by
    simp only [ordered_fromB, ordered_from, List.all_eq_true, List.any_eq_true,
      List.mem_range, Bool.or_eq_true, Bool.not_eq_true', decide_eq_false_iff_not,
      decide_eq_true_eq]
    constructor
    · intro h i hi hni r hr
      rcases h i hi with h' | h'
      · exact absurd hni h'
      · obtain ⟨j, hj, hd⟩ := h' r hr
        exact ⟨j, hj, hd⟩
    · intro h i hi
      by_cases hni : n ≤ i
      · exact Or.inr fun r hr => (h i hi hni r hr).imp fun j hj => ⟨hj.1, hj.2⟩
      · exact Or.inl hni)

/-- A rank function witnessing that the parent / next edges of the style
arena only ever point to strictly earlier ranks (styles are only
parented within creation order — no cycles). -/
def RankOK (reg : List Style) (rank : Nat → Nat) : Prop :=
  ∀ s p, ((reg.getD s default).parent_style = some p → rank p < rank s) ∧
         ((reg.getD s default).next_style = some p → rank p < rank s)

/-! ## Concrete scenarios used by counterexamples and witnesses -/

/-- C1 scenario: style 0 (`Y`) is used; style 1 (`X`) is used and based
on `Y`.  `define_style` is called on `X` before the header is written
(as `define_styles` does for every used style). -/
def c1_reg : List Style :=
  [{ realm := "paragraph", wpid := "y", internal_name := "Y", name := "Y",
     used := true },
   { realm := "paragraph", wpid := "x", internal_name := "X", name := "X",
     used := true, parent_style := some 0 }]

def c1_writer0 : Writer := {}

def c1_after_define : Writer := (define_style c1_reg 10 1 c1_writer0).getD c1_writer0

/-- The first paragraph triggers the lazy header. -/
def c1_emitted : Writer := (enter_paragraph c1_reg 10 none c1_after_define).getD c1_writer0

/-- C2 scenario: a style whose `parent_wpid` names a style that was
never declared. -/
def c2_ghost_st : RunSt :=
  { arena := [{ realm := "paragraph", wpid := "x", internal_name := "X",
                name := "X", parent_wpid := some "ghost" }],
    index := [("paragraph:x", 0)] }

/-- C2 scenario: style 2 has a declared but unused parent (style 1);
style 0 is the realm's base style. -/
def c2_st : RunSt :=
  { arena :=
      [{ realm := "paragraph", wpid := "base", internal_name := "Base",
         name := "Base", used := true },
       { realm := "paragraph", wpid := "p", internal_name := "P", name := "P",
         used := false },
       { realm := "paragraph", wpid := "x", internal_name := "X", name := "X",
         used := true, parent_wpid := some "p", parent_style := some 1 }],
    index := [("paragraph:base", 0), ("paragraph:p", 1), ("paragraph:x", 2)],
    baseNames := [("paragraph", "base")],
    baseStyles := [("paragraph", 0)] }

/-- C3 scenario: the one paragraph style of a document, as declared. -/
def c3_style : Style :=
  { realm := "paragraph", wpid := "body", internal_name := "body", name := "Body" }

def c3_section : String := fix_section_name "paragraph" "body"

/-- The settings store as loaded from an existing file at the start of
a run: the style's section is already present and `touched` starts out
false. -/
def c3_ini : SettingsFile :=
  { sections := [(c3_section, [("name", "Body")])], touched := false }

/-- Activating the style calls `update_section` on the stored store. -/
def c3_run : SettingsFile × Except RunErr Unit :=
  update_section c3_ini c3_section c3_style

/-- C4 scenario: two valid rules, both targeting style 0. -/
def c4_reg : List Style :=
  [{ realm := "paragraph", wpid := "a", internal_name := "A", name := "A",
     used := true, count := 5 },
   { realm := "paragraph", wpid := "b", internal_name := "B", name := "B" },
   { realm := "paragraph", wpid := "c", internal_name := "C", name := "C" }]

def c4_rule1 : Rule :=
  { mnemonic := "R1", description := "first", turn_this := some "[paragraph:A]",
    into_this := some "[paragraph:B]", turn_this_style := some 0,
    into_this_style := some 1, valid := true }

def c4_rule2 : Rule :=
  { mnemonic := "R2", description := "second", turn_this := some "[paragraph:A]",
    into_this := some "[paragraph:C]", turn_this_style := some 0,
    into_this_style := some 2, valid := true }

/-- C5 scenario: paragraph style `Body` at its first use
(`count = 1`) and the rule first-`Body`-becomes-`Opening`. -/
def c5_reg : List Style :=
  [{ realm := "paragraph", wpid := "body", internal_name := "Body",
     name := "Body", used := true, count := 1 },
   { realm := "paragraph", wpid := "opening", internal_name := "Opening",
     name := "Opening", used := true }]

def c5_rule : Rule :=
  { mnemonic := "R1", description := "Opening", turn_this := some "[paragraph:Body]",
    into_this := some "[paragraph:Opening]", when_first_in_doc := some "true",
    turn_this_style := some 0, into_this_style := some 1, valid := true }

/-- C9 scenario: a document-declared but non-custom paragraph style
`Body`, bold manual formatting. -/
def c9_st : RunSt :=
  { arena :=
      [{ realm := "paragraph", wpid := "bp", internal_name := "Basic Paragraph",
         name := "Basic Paragraph", used := true },
       { realm := "paragraph", wpid := "body", internal_name := "Body",
         name := "Body", custom := false, used := true }],
    index := [("paragraph:bp", 0), ("paragraph:body", 1)],
    baseNames := [("paragraph", "bp")],
    baseStyles := [("paragraph", 0)] }

def c9_with_base : Except RunErr (Option Nat × RunSt) :=
  get_manual_style 10 c9_st "paragraph" (some 1) BOLD

def c9_without_base : Except RunErr (Option Nat × RunSt) :=
  get_manual_style 10 c9_st "paragraph" none BOLD

/-- C10 scenario: a character style that is already the active one. -/
def c10_reg : List Style :=
  [{ realm := "character", wpid := "em", internal_name := "Emphasis",
     name := "Emphasis", used := true }]

def c10_writer : Writer :=
  { styles := [(0, .written)], headers_written := true,
    buffer := [OutItem.defBlock 0 []], curr_char_style := some 0 }

def c10_ds : State := { curr_char_style := some 0 }

/-- C6 scenario: two identical manual-format requests (same base style,
same format bits) against a one-style registry. -/
def c6_st : RunSt :=
  { arena :=
      [{ realm := "paragraph", wpid := "body", internal_name := "Body",
         name := "Body", used := true }],
    index := [("paragraph:body", 0)] }

def c6_calls : List MCall :=
  [{ realm := "paragraph", unadorned := some 0, fmt := BOLD },
   { realm := "paragraph", unadorned := some 0, fmt := BOLD }]

/-! ## Theorems: the code-bug claims (C2, C3, C4, C5, C6, C7, C8, C9) -/

/-- C3: the idempotence scenario cannot run — `update_section` raises
`NotAnAttrsClassError` at its `for name, ini_name in self.fields(Style)`
iteration before any `section.get(ini_name) != value` comparison, so
`touched` is never set by it and the exception propagates (no caller
catches it) before `backup_and_write` could run; the store as mutated
so far is untouched and would copy no `.bak`. -/
theorem c3_theorem :
    c3_run.2 = .error (.notAnAttrsClass "Style") ∧
    c3_run.1.touched = false ∧
    backup_and_write c3_run.1 true = false := by
  exact ⟨rfl, rfl, rfl⟩

/-- C4: with two valid rules both targeting style `A`, evaluating the
rules for a paragraph styled `A` does not apply the first rule — it
raises `AttributeError` (`Rule` has no field `unless_empty`, yet
`rule_applies_to` reads `rule.unless_empty`).  Only a rule list with no
valid rule evaluates without failing, returning the resolved style
unchanged. -/
theorem c4_theorem :
    apply_rules_to c4_reg none [c4_rule1, c4_rule2] (some 0) false =
      .error (.attributeError "unless_empty") ∧
    apply_rules_to c4_reg none
        [{ c4_rule1 with valid := false }, { c4_rule2 with valid := false }]
        (some 0) false =
      .ok (some 0, [{ c4_rule1 with valid := false }, { c4_rule2 with valid := false }]) := by
  exact ⟨rfl, rfl⟩

/-- C5: in the first-`Body`-becomes-`Opening` scenario, evaluating the
(valid) rule on the first `Body` paragraph raises `AttributeError`
instead of matching, so the run never emits `ParaStyle:Opening`. -/
theorem c5_theorem :
    apply_rules_to c5_reg none [c5_rule] (some 0) false =
      .error (.attributeError "unless_empty") := rfl

/-- C8: evaluating the predicates of any valid rule fails — the source
reads `rule.unless_empty` but the `Rule` dataclass declares no such
field — so the check is not total over the `Rule` type.  (An invalid
rule short-circuits before the read and yields `False`.) -/
theorem c8_theorem :
    rule_applies_to c4_reg none c5_rule 0 false =
      .error (.attributeError "unless_empty") ∧
    rule_applies_to c4_reg none { c5_rule with valid := false } 0 false = .ok false := by
  exact ⟨rfl, rfl⟩

/-- C2: neither half of the self-healing claim is observable in the
source.  A style whose `parent_id` names an undeclared style ("ghost")
crashes `link_styles` with `KeyError` (the plain dict subscript in
`style_or_none`) before activation is ever reached; and activating a
style whose parent is declared but unused rewrites the parent link but
then raises `NotAnAttrsClassError` inside `update_section`, so the run
crashes before any emission could witness the healed link. -/
theorem c2_theorem :
    link_styles c2_ghost_st = .error (.keyError "paragraph:ghost") ∧
    activate_style 10 2 c2_st = .error (.notAnAttrsClass "Style") := by
  exact ⟨rfl, rfl⟩

/-- C6: no synthesis request ever completes.  The first request for any
`(format bits, base)` pair builds its cache key, misses the
never-populated cache, and raises `NotAnAttrsClassError` inside
`found_style_definition` before the synthetic style is constructed or
memoized — so no synthetic style is ever created, nothing is ever
served from the cache, and a run of same-key requests crashes at the
first one. -/
theorem c6_theorem :
    manual_key c6_st "paragraph" (some 0) BOLD = some ⟨BOLD, some "body"⟩ ∧
    alookup c6_st.manual ⟨BOLD, some "body"⟩ = none ∧
    get_manual_style 10 c6_st "paragraph" (some 0) BOLD =
      .error (.notAnAttrsClass "Style") ∧
    run_manual_calls 10 c6_calls c6_st = .error (.notAnAttrsClass "Style") := by
  exact ⟨rfl, rfl, rfl, rfl⟩

/-- C7: a style declaration never completes, first or repeated —
`found_style_definition` raises `NotAnAttrsClassError` in its
persisted-settings merge on every call, before `add_style`, so no
`Style` is ever created or installed and the claimed idempotent
per-key lifecycle is unobservable. -/
theorem c7_theorem (st : RunSt) (realm internal_name wpid : String)
    (kw : DeclKwargs) :
    found_style_definition st realm internal_name wpid kw =
      .error (.notAnAttrsClass "Style") := rfl

/-- C9: the base-style filter is commented out, so the cache key embeds
the non-custom base's wpid — it is not computed as if no base had been
supplied — and the synthesis then raises `NotAnAttrsClassError` inside
`found_style_definition` before any synthetic style (whose name and
parent the claim describes) is produced. -/
theorem c9_theorem :
    manual_key c9_st "paragraph" (some 1) BOLD = some ⟨BOLD, some "body"⟩ ∧
    manual_key c9_st "paragraph" none BOLD = some ⟨BOLD, none⟩ ∧
    (⟨BOLD, some "body"⟩ : ManualFormatCustomStyle) ≠ ⟨BOLD, none⟩ ∧
    c9_with_base = .error (.notAnAttrsClass "Style") ∧
    c9_without_base = .error (.notAnAttrsClass "Style") := by
  refine ⟨rfl, rfl, by decide, rfl, rfl⟩

/-! ## Counterexample theorems (C1, C10) -/

/-- C1 counterexample: `define_style(X)` inserts `X` into the tracking
dict *before* recursing into its parent `Y`, so the lazily written
header emits `X`'s define block (which references `Y` via `BasedOn`) at
position 1 and `Y`'s own define block only at position 3 — `Y`'s block
does not appear earlier than `X`'s, refuting the claim for the header
path. -/
theorem c1_counterexample :
    c1_emitted.buffer =
      [OutItem.headerBanner, OutItem.defBlock 1 [0], OutItem.newline,
       OutItem.defBlock 0 [], OutItem.newline, OutItem.styleTag "Para" none] ∧
    ¬ ordered_from c1_emitted.buffer 0 := by
  constructor
  · decide
  · decide

/-- C10 counterexample: the writer's `set_character_style`, asked for
the style that is already active, still emits a `CharStyle` tag — it
does no diffing (and, returning `None` in the source, it does not
return the previous style either; both live in the driver's
`switch_character_style`). -/
theorem c10_counterexample :
    set_character_style c10_reg 5 (some 0) c10_writer =
      some { c10_writer with
             buffer := c10_writer.buffer ++ [OutItem.styleTag "Char" (some 0)] } := rfl

/-! ## Helper lemmas: dictionaries and buffers -/

theorem alookup_aset_self {α β : Type} [DecidableEq α] (l : List (α × β)) (k : α)
    (v : β) : alookup (aset l k v) k = some v := by
  induction l with
  | nil => simp [aset, alookup]
  | cons hd tl ih =>
    obtain ⟨k0, v0⟩ := hd
    by_cases hk : k0 = k
    · simp [aset, hk, alookup]
    · simp [aset, hk, alookup, ih]

theorem alookup_aset_ne {α β : Type} [DecidableEq α] (l : List (α × β)) (k k' : α)
    (v : β) (h : k' ≠ k) : alookup (aset l k v) k' = alookup l k' := by
  induction l with
  | nil =>
    simp only [aset, alookup]
    rw [if_neg fun hh => h hh.symm]
  | cons hd tl ih =>
    obtain ⟨k0, v0⟩ := hd
    by_cases hk : k0 = k
    · subst hk
      simp only [aset, if_pos rfl, alookup]
      rw [if_neg fun hh => h hh.symm, if_neg fun hh => h hh.symm]
    · simp only [aset, if_neg hk, alookup]
      by_cases hk' : k0 = k'
      · simp [hk']
      · simp [hk', ih]

theorem alookup_aset (l : List (Nat × StyleState)) (k k' : Nat) (v : StyleState) :
    alookup (aset l k v) k' = if k' = k then some v else alookup l k' := by
  by_cases h : k' = k
  · subst h; simp [alookup_aset_self]
  · simp [h, alookup_aset_ne l k k' v h]

theorem getD_append_left {α : Type} (l d : List α) (i : Nat) (x : α)
    (h : i < l.length) : (l ++ d).getD i x = l.getD i x := by
  simp [List.getD_eq_getElem?_getD, List.getElem?_append, h]

theorem getD_snoc {α : Type} (l : List α) (a x : α) :
    (l ++ [a]).getD l.length x = a := by
  simp [List.getD_eq_getElem?_getD]

theorem has_block_append (buf d : List OutItem) (s : Nat)
    (h : has_block buf s = true) : has_block (buf ++ d) s = true := by
  simp only [has_block, List.any_append, Bool.or_eq_true]
  exact Or.inl h

theorem has_block_exists (buf : List OutItem) (s : Nat)
    (h : has_block buf s = true) :
    ∃ j, j < buf.length ∧ is_def_of s (buf.getD j .newline) = true := by
  induction buf with
  | nil => simp [has_block] at h
  | cons hd tl ih =>
    simp only [has_block, List.any_cons, Bool.or_eq_true] at h
    rcases h with h | h
    · exact ⟨0, by simp, by simpa [List.getD] using h⟩
    · obtain ⟨j, hj, hd'⟩ := ih h
      exact ⟨j + 1, by simpa using hj, by simpa [List.getD] using hd'⟩

theorem has_block_of_def (buf : List OutItem) (s : Nat) (refs : List Nat) :
    has_block (buf ++ [OutItem.defBlock s refs]) s = true := by
  simp [has_block, is_def_of]

/-- `define_style_finish` only ever appends to the output buffer. -/
theorem define_style_finish_append (reg : List Style) (s : Nat) (w3 : Writer) :
    ∃ d, (define_style_finish reg s w3).buffer = w3.buffer ++ d := by
  rw [define_style_finish]
  split
  · rw [_write_style_definition]
    split
    · exact ⟨[], by simp⟩
    · exact ⟨[OutItem.defBlock s (style_refs reg s)], rfl⟩
  · exact ⟨[], by simp⟩

/-- `define_opt` only ever appends to the output buffer. -/
theorem define_opt_append (reg : List Style) :
    ∀ (fuel : Nat) (s? : Option Nat) (w w' : Writer),
      define_opt reg fuel s? w = some w' → ∃ d, w'.buffer = w.buffer ++ d := by
  intro fuel
  induction fuel with
  | zero =>
    intro s? w w' h
    cases s? with
    | none => rw [define_opt] at h; cases h; exact ⟨[], by simp⟩
    | some s => rw [define_opt] at h; exact absurd h (by simp)
  | succ n ih =>
    intro s? w w' h
    cases s? with
    | none => rw [define_opt] at h; cases h; exact ⟨[], by simp⟩
    | some s =>
      rw [define_opt] at h
      split at h
      · cases h
        exact ⟨[], by simp⟩
      · cases hb1 : define_opt reg n (reg.getD s default).parent_style
            { w with styles := aset w.styles s StyleState.seen } with
        | none => rw [hb1] at h; simp at h
        | some w2 =>
          rw [hb1] at h
          simp only [Option.some_bind] at h
          cases hb2 : define_opt reg n (reg.getD s default).next_style w2 with
          | none => rw [hb2] at h; simp at h
          | some w3 =>
            rw [hb2] at h
            simp only [Option.some_bind, Option.some.injEq] at h
            obtain ⟨d1, hd1⟩ := ih _ _ _ hb1
            obtain ⟨d2, hd2⟩ := ih _ _ _ hb2
            obtain ⟨d3, hd3⟩ := define_style_finish_append reg s w3
            exact ⟨d1 ++ d2 ++ d3, by rw [← h, hd3, hd2, hd1]; simp⟩

/-- `define_style` only ever appends to the output buffer. -/
theorem define_style_append (reg : List Style) (fuel s : Nat) (w w' : Writer)
    (h : define_style reg fuel s w = some w') :
    ∃ d, w'.buffer = w.buffer ++ d :=
  define_opt_append reg fuel (some s) w w' h

theorem aset_aset {α β : Type} [DecidableEq α] (l : List (α × β)) (k : α)
    (v v' : β) : aset (aset l k v) k v' = aset l k v' := by
  induction l with
  | nil => simp [aset]
  | cons hd tl ih =>
    obtain ⟨k0, v0⟩ := hd
    by_cases hk : k0 = k
    · simp [aset, hk]
    · simp [aset, hk, ih]

/-- Membership in the emitted references of a define block: the
referenced style is the parent or the next style, and it is used. -/
theorem mem_style_refs (reg : List Style) (s r : Nat)
    (h : r ∈ style_refs reg s) :
    ((reg.getD s default).parent_style = some r ∧ (reg.getD r default).used = true) ∨
    ((reg.getD s default).next_style = some r ∧ (reg.getD r default).used = true) := by
  simp only [style_refs, List.mem_append] at h
  rcases h with h | h
  · left
    cases hp : (reg.getD s default).parent_style with
    | none => rw [hp] at h; simp at h
    | some p =>
      rw [hp] at h
      have h' : r ∈ (if (reg.getD p default).used = true then [p] else []) := h
      by_cases hu : (reg.getD p default).used = true
      · rw [if_pos hu] at h'
        simp only [List.mem_singleton] at h'
        subst h'
        exact ⟨rfl, hu⟩
      · rw [if_neg hu] at h'
        simp at h'
  · right
    cases hn : (reg.getD s default).next_style with
    | none => rw [hn] at h; simp at h
    | some nx =>
      rw [hn] at h
      have h' : r ∈ (if (reg.getD nx default).used = true then [nx] else []) := h
      by_cases hu : (reg.getD nx default).used = true
      · rw [if_pos hu] at h'
        simp only [List.mem_singleton] at h'
        subst h'
        exact ⟨rfl, hu⟩
      · rw [if_neg hu] at h'
        simp at h'

/-- When the headers have been written and the style is not yet marked
`WRITTEN`, `define_style_finish` emits the define block and flips the
marker to `WRITTEN`. -/
theorem define_style_finish_eq (reg : List Style) (s : Nat) (w3 : Writer)
    (hh : w3.headers_written = true) :
    define_style_finish reg s w3 =
      { w3 with
        styles := aset w3.styles s StyleState.written,
        buffer := w3.buffer ++ [OutItem.defBlock s (style_refs reg s)] } := by
  simp only [define_style_finish, hh, if_pos, _write_style_definition,
    alookup_aset_self, Option.getD_some, aset_aset]
  split
  · next hcon => exact absurd hcon (by simp)
  · rfl

/-- The main inductive invariant behind C1 (amended): running
`define_opt` after the headers have been written, on a writer whose
pending (`SEEN`) entries all have rank above the requested style, (a)
only appends to the buffer, (b) keeps the headers flag, (c) leaves the
requested style `WRITTEN`, (d) preserves `WRITTEN` entries, (e) creates
no new pending entries, (f) keeps a define block in the buffer for every
`WRITTEN` entry, and (g) emits every appended define block after the
blocks of all the styles it references. -/
theorem define_opt_aux (reg : List Style) (rank : Nat → Nat)
    (hrank : RankOK reg rank) :
    ∀ (n : Nat) (s? : Option Nat) (w w' : Writer),
      define_opt reg n s? w = some w' →
      w.headers_written = true →
      (∀ t v, alookup w.styles t = some v →
        v = StyleState.written ∨
          (v = StyleState.seen ∧ ∀ u, s? = some u → rank u < rank t)) →
      (∀ t, alookup w.styles t = some StyleState.written →
        has_block w.buffer t = true) →
      ((∃ d, w'.buffer = w.buffer ++ d) ∧
       w'.headers_written = true ∧
       (∀ u, s? = some u → alookup w'.styles u = some StyleState.written) ∧
       (∀ t, alookup w.styles t = some StyleState.written →
         alookup w'.styles t = some StyleState.written) ∧
       (∀ t v, alookup w'.styles t = some v →
         v = StyleState.written ∨ alookup w.styles t = some v) ∧
       (∀ t, alookup w'.styles t = some StyleState.written →
         has_block w'.buffer t = true) ∧
       ordered_from w'.buffer w.buffer.length) := by
  intro n
  induction n with
  | zero =>
    intro s? w w' h hh _ hblk
    cases s? with
    | none =>
      rw [define_opt] at h
      cases h
      refine ⟨⟨[], by simp⟩, hh, by simp, fun t ht => ht, fun t v hv => Or.inr hv,
        hblk, ?_⟩
      intro i hi hni
      omega
    | some s => rw [define_opt] at h; exact absurd h (by simp)
  | succ n ih =>
    intro s? w w' h hh hpend hblk
    cases s? with
    | none =>
      rw [define_opt] at h
      cases h
      refine ⟨⟨[], by simp⟩, hh, by simp, fun t ht => ht, fun t v hv => Or.inr hv,
        hblk, ?_⟩
      intro i hi hni
      omega
    | some s =>
      rw [define_opt] at h
      split at h
      · -- already tracked: it must be WRITTEN (a pending entry would
        -- have rank s < rank s)
        next hs =>
        cases h
        obtain ⟨v, hv⟩ := Option.isSome_iff_exists.1 hs
        have hw : v = StyleState.written := by
          rcases hpend s v hv with h' | ⟨_, h'⟩
          · exact h'
          · exact absurd (h' s rfl) (lt_irrefl _)
        refine ⟨⟨[], by simp⟩, hh, ?_, fun t ht => ht, fun t v hv => Or.inr hv,
          hblk, ?_⟩
        · intro u hu
          cases hu
          rw [hv, hw]
        · intro i hi hni
          omega
      · -- fresh style
        next hs =>
        cases hb1 : define_opt reg n (reg.getD s default).parent_style
            { w with styles := aset w.styles s StyleState.seen } with
        | none => rw [hb1] at h; simp at h
        | some w2 =>
          rw [hb1] at h
          simp only [Option.some_bind] at h
          cases hb2 : define_opt reg n (reg.getD s default).next_style w2 with
          | none => rw [hb2] at h; simp at h
          | some w3 =>
            rw [hb2] at h
            simp only [Option.some_bind, Option.some.injEq] at h
            -- the intermediate writer after inserting s as SEEN
            have hlk1 : ∀ t, alookup ({ w with
                styles := aset w.styles s StyleState.seen } : Writer).styles t =
                if t = s then some StyleState.seen else alookup w.styles t := by
              intro t
              exact alookup_aset w.styles s t StyleState.seen
            -- hypotheses for the first recursive call
            have hpend1 : ∀ t v,
                alookup (aset w.styles s StyleState.seen) t = some v →
                v = StyleState.written ∨
                  (v = StyleState.seen ∧
                   ∀ u, (reg.getD s default).parent_style = some u → rank u < rank t) := by
              intro t v hv
              rw [alookup_aset] at hv
              by_cases hts : t = s
              · rw [if_pos hts] at hv
                cases hv
                refine Or.inr ⟨rfl, fun u hu => ?_⟩
                rw [hts]
                exact (hrank s u).1 hu
              · rw [if_neg hts] at hv
                rcases hpend t v hv with h' | ⟨hseen, hlt⟩
                · exact Or.inl h'
                · refine Or.inr ⟨hseen, fun u hu => ?_⟩
                  exact lt_trans ((hrank s u).1 hu) (hlt s rfl)
            have hblk1 : ∀ t,
                alookup (aset w.styles s StyleState.seen) t =
                  some StyleState.written →
                has_block w.buffer t = true := by
              intro t ht
              rw [alookup_aset] at ht
              by_cases hts : t = s
              · rw [if_pos hts] at ht
                cases ht
              · rw [if_neg hts] at ht
                exact hblk t ht
            obtain ⟨⟨d1, hd1⟩, hh2, hwr2, hpres2, hnew2, hblk2, hord2⟩ :=
              ih (reg.getD s default).parent_style
                { w with styles := aset w.styles s StyleState.seen } w2 hb1 hh
                hpend1 hblk1
            -- hypotheses for the second recursive call
            have hpend2 : ∀ t v, alookup w2.styles t = some v →
                v = StyleState.written ∨
                  (v = StyleState.seen ∧
                   ∀ u, (reg.getD s default).next_style = some u → rank u < rank t) := by
              intro t v hv
              rcases hnew2 t v hv with h' | h'
              · exact Or.inl h'
              · rw [alookup_aset] at h'
                by_cases hts : t = s
                · rw [if_pos hts] at h'
                  cases h'
                  refine Or.inr ⟨rfl, fun u hu => ?_⟩
                  rw [hts]
                  exact (hrank s u).2 hu
                · rw [if_neg hts] at h'
                  rcases hpend t v h' with h'' | ⟨hseen, hlt⟩
                  · exact Or.inl h''
                  · refine Or.inr ⟨hseen, fun u hu => ?_⟩
                    exact lt_trans ((hrank s u).2 hu) (hlt s rfl)
            obtain ⟨⟨d2, hd2⟩, hh3, hwr3, hpres3, hnew3, hblk3, hord3⟩ :=
              ih (reg.getD s default).next_style w2 w3 hb2 hh2 hpend2 hblk2
            -- finish: the inline write of s's own block
            rw [define_style_finish_eq reg s w3 hh3] at h
            have hst' : w'.styles = aset w3.styles s StyleState.written := by
              rw [← h]
            have hbf' : w'.buffer =
                w3.buffer ++ [OutItem.defBlock s (style_refs reg s)] := by
              rw [← h]
            have hhw' : w'.headers_written = w3.headers_written := by
              rw [← h]
            have hbuf1 : ({ w with
                styles := aset w.styles s StyleState.seen } : Writer).buffer =
                w.buffer := rfl
            rw [hbuf1] at hd1 hord2
            -- the pieces of the final buffer
            have hbuf' : w3.buffer = w.buffer ++ d1 ++ d2 := by rw [hd2, hd1]
            refine ⟨⟨d1 ++ d2 ++ [OutItem.defBlock s (style_refs reg s)], by
                rw [hbf', hbuf']; simp [List.append_assoc]⟩,
              by rw [hhw']; exact hh3, ?_, ?_, ?_, ?_, ?_⟩
            · -- s ends WRITTEN
              intro u hu
              cases hu
              rw [hst']
              simp [alookup_aset_self]
            · -- WRITTEN entries preserved
              intro t ht
              have hts : t ≠ s := by
                intro hts
                rw [hts] at ht
                rw [Option.isSome_iff_exists] at hs
                exact hs ⟨_, ht⟩
              have h2 : alookup w2.styles t = some StyleState.written :=
                hpres2 t (by
                  show alookup (aset w.styles s StyleState.seen) t =
                    some StyleState.written
                  rw [alookup_aset, if_neg hts]
                  exact ht)
              have h3 := hpres3 t h2
              rw [hst', alookup_aset, if_neg hts]
              exact h3
            · -- no entry downgraded / invented
              intro t v hv
              rw [hst', alookup_aset] at hv
              by_cases hts : t = s
              · rw [if_pos hts] at hv
                cases hv
                exact Or.inl rfl
              · rw [if_neg hts] at hv
                rcases hnew3 t v hv with h' | h'
                · exact Or.inl h'
                · rcases hnew2 t v h' with h'' | h''
                  · exact Or.inl h''
                  · have h''' : alookup (aset w.styles s StyleState.seen) t =
                        some v := h''
                    rw [alookup_aset, if_neg hts] at h'''
                    exact Or.inr h'''
            · -- every WRITTEN entry has a block
              intro t ht
              rw [hst', alookup_aset] at ht
              rw [hbf']
              by_cases hts : t = s
              · subst hts
                exact has_block_of_def w3.buffer t (style_refs reg t)
              · rw [if_neg hts] at ht
                exact has_block_append _ _ _ (hblk3 t ht)
            · -- appended blocks are reference-ordered
              intro i hi hni r hr
              rw [hbf'] at hi hr
              rw [hbf']
              simp only [List.length_append, List.length_singleton] at hi
              by_cases hi3 : i < w3.buffer.length
              · -- a block appended by one of the recursive calls
                rw [getD_append_left _ _ _ _ hi3] at hr
                by_cases hi2 : i < w2.buffer.length
                · -- from the parent call
                  rw [hd2, getD_append_left _ _ _ _ hi2] at hr
                  obtain ⟨j, hj, hjd⟩ := hord2 i hi2 hni r hr
                  refine ⟨j, hj, ?_⟩
                  have hjw2 : j < w2.buffer.length := lt_trans hj hi2
                  have hjw3 : j < w3.buffer.length := by
                    rw [hd2]
                    simp only [List.length_append]
                    omega
                  rw [getD_append_left _ _ _ _ hjw3, hd2,
                    getD_append_left _ _ _ _ hjw2]
                  exact hjd
                · -- from the next call
                  have hni2 : w2.buffer.length ≤ i := le_of_not_lt hi2
                  obtain ⟨j, hj, hjd⟩ := hord3 i hi3 hni2 r hr
                  exact ⟨j, hj, by
                    rw [getD_append_left _ _ _ _ (lt_trans hj hi3)]
                    exact hjd⟩
              · -- the final inline block of s itself
                have hieq : i = w3.buffer.length := by omega
                subst hieq
                rw [getD_snoc] at hr
                simp only [block_refs] at hr
                have hrw : alookup w3.styles r = some StyleState.written := by
                  rcases mem_style_refs reg s r hr with ⟨hp, _⟩ | ⟨hn, _⟩
                  · exact hpres3 r (hwr2 r hp)
                  · exact hwr3 r hn
                obtain ⟨j, hj, hjd⟩ := has_block_exists w3.buffer r (hblk3 r hrw)
                exact ⟨j, hj, by rw [getD_append_left _ _ _ _ hj]; exact hjd⟩

/-- C1 (amended): after the headers have been written, every define
block emitted inline by `define_style` appears after the define blocks
of every style it references (`BasedOn` / `Nextstyle`); in the lazily
written header itself, blocks appear in first-seen order instead (see
the counterexample).  The writer must be in the steady post-header
state (all tracked styles `WRITTEN`, each with a block already in the
buffer), and the parent/next graph must be ranked (acyclic, as styles
are only parented within creation order). -/
theorem c1_theorem (reg : List Style) (rank : Nat → Nat) (fuel s : Nat)
    (w w' : Writer)
    (hrank : RankOK reg rank)
    (hhdr : w.headers_written = true)
    (hsteady : ∀ t v, alookup w.styles t = some v → v = StyleState.written)
    (hblocks : ∀ t, alookup w.styles t = some StyleState.written →
      has_block w.buffer t = true)
    (hrun : define_style reg fuel s w = some w') :
    (∃ d, w'.buffer = w.buffer ++ d) ∧ ordered_from w'.buffer w.buffer.length := by
  obtain ⟨ha, _, _, _, _, _, hg⟩ :=
    define_opt_aux reg rank hrank fuel (some s) w w' hrun hhdr
      (fun t v hv => Or.inl (hsteady t v hv)) hblocks
  exact ⟨ha, hg⟩

/-- The steady post-header writer used by the C1 witness. -/
def c1_w0 : Writer :=
  { styles := [], headers_written := true, buffer := [OutItem.headerBanner] }

def c1_inline : Writer := (define_style c1_reg 10 1 c1_w0).getD c1_w0

/-- C1 witness: defining style `X` (parent `Y`) inline after the header
yields a buffer extension whose new define blocks are
definition-before-use ordered. -/
theorem c1_witness :
    (∃ d, c1_inline.buffer = c1_w0.buffer ++ d) ∧
    ordered_from c1_inline.buffer c1_w0.buffer.length :=
  c1_theorem c1_reg (fun i => i) 10 1 c1_w0 c1_inline
    (by
      intro s p
      constructor <;> intro h
      · cases s with
        | zero => simp [c1_reg] at h
        | succ s1 =>
          cases s1 with
          | zero =>
            have h' : some 0 = some p := h
            cases h'
            show (0 : Nat) < 1
            decide
          | succ n =>
            simp [c1_reg, List.getD] at h
      · cases s with
        | zero => simp [c1_reg] at h
        | succ s1 =>
          cases s1 with
          | zero => simp [c1_reg] at h
          | succ n => simp [c1_reg, List.getD] at h)
    rfl
    (fun t v hv => by simp [c1_w0, alookup] at hv)
    (fun t ht => by simp [c1_w0, alookup] at ht)
    rfl

/-- C10 (amended): the diffing and the previous-style return live in the
driver.  `switch_character_style` always returns the previously active
character style; it leaves the writer untouched when the requested style
is (by identity) the active one, and otherwise calls the writer, which
appends a `CharStyle` tag (after any inline style definitions) and
records the new style. -/
theorem c10_theorem (reg : List Style) (fuel : Nat) (style : Option Nat)
    (ds : State) (w : Writer) (r : Option Nat) (ds' : State) (w' : Writer)
    (h : switch_character_style reg fuel style ds w = some (r, ds', w')) :
    r = ds.curr_char_style ∧
    (style = ds.curr_char_style → w' = w ∧ ds' = ds) ∧
    (style ≠ ds.curr_char_style →
      (∃ mid, w'.buffer = w.buffer ++ mid ++ [OutItem.styleTag "Char" style]) ∧
      ds'.curr_char_style = style ∧ w'.curr_char_style = style) := by
  rw [switch_character_style] at h
  by_cases hne : style = ds.curr_char_style
  · rw [if_neg (by simp [hne])] at h
    cases h
    exact ⟨rfl, fun _ => ⟨rfl, rfl⟩, fun hc => absurd hne hc⟩
  · rw [if_pos hne] at h
    rw [set_character_style, _set_style] at h
    cases hb : define_opt reg fuel style w with
    | none => rw [hb] at h; simp at h
    | some w1 =>
      rw [hb] at h
      simp only [Option.map_some', Option.some.injEq, Prod.mk.injEq] at h
      obtain ⟨hr, hds, hw⟩ := h
      obtain ⟨d, hd⟩ := define_opt_append reg fuel style w w1 hb
      refine ⟨hr.symm, fun hc => absurd hc hne, fun _ => ⟨⟨d, ?_⟩, ?_, ?_⟩⟩
      · rw [← hw]; simp [hd]
      · rw [← hds]
      · rw [← hw]

/-- C10 witness: a concrete application (requested style differs from
the active one). -/
theorem c10_witness :
    (some 0 : Option Nat) = c10_ds.curr_char_style ∧
    ((none : Option Nat) = c10_ds.curr_char_style →
      ({ c10_writer with
         buffer := c10_writer.buffer ++ [OutItem.styleTag "Char" none],
         curr_char_style := none } = c10_writer ∧
       { c10_ds with curr_char_style := none } = c10_ds)) ∧
    ((none : Option Nat) ≠ c10_ds.curr_char_style →
      (∃ mid,
        ({ c10_writer with
           buffer := c10_writer.buffer ++ [OutItem.styleTag "Char" none],
           curr_char_style := none } : Writer).buffer =
          c10_writer.buffer ++ mid ++ [OutItem.styleTag "Char" none]) ∧
      ({ c10_ds with curr_char_style := none } : State).curr_char_style = none ∧
      ({ c10_writer with
         buffer := c10_writer.buffer ++ [OutItem.styleTag "Char" none],
         curr_char_style := none } : Writer).curr_char_style = none) :=
  c10_theorem c10_reg 5 none c10_ds c10_writer (some 0)
    { c10_ds with curr_char_style := none }
    { c10_writer with
      buffer := c10_writer.buffer ++ [OutItem.styleTag "Char" none],
      curr_char_style := none } rfl

end Wp2tt
